import Mathlib

/-!
Verification of the budget-insights core of the n8n FastAPI service
(`src/main.py`).  The Python module is shallowly embedded: rows are
association lists from column names to cell values, Python floats are
modelled by exact rationals (`ℚ`), dictionaries by association lists, and
the fallible `compute_insights` returns `Except` of the structured
422 error.  Python's stable `sorted` is modelled by `List.insertionSort`
(a stable sort) with the corresponding comparison.
-/

/- The kernel evaluates `ℚ` arithmetic fine (`Nat.gcd` is builtin there);
these operations are only `irreducible` for the elaborator.  Re-marking
them lets `decide` settle ground rational facts. -/
attribute [local semireducible] Rat.mul Rat.inv Rat.add Rat.sub Rat.ofScientific Nat.gcd

namespace Insights

/-- A cell value of a row: JSON scalars as they reach the endpoint.
`num` covers Python ints and finite floats (exact rationals stand in for
IEEE doubles); `nan` is a float NaN, kept separate since `ℚ` has no NaN. -/
inductive Value where
  | null : Value
  | bool : Bool → Value
  | num : ℚ → Value
  | nan : Value
  | str : String → Value
deriving DecidableEq, Repr

/-- Python `str()` of a cell value.  The rendering of `num` is a stand-in
for Python's int/float repr; no claim depends on the rendering of numeric
cells (it only feeds group labels and flag labels). -/
def pyStr : Value → String
  | .null => "None"
  | .bool true => "True"
  | .bool false => "False"
  | .num q => if q.den = 1 then toString q.num else toString q
  | .nan => "nan"
  | .str s => s

/-- ASCII whitespace recognised by Python `str.strip` and the regex `\s`
(`' '`, `\t`, `\n`, `\r`, `\v`, `\f`).  Non-ASCII Unicode whitespace is
not modelled; no claim exercises it. -/
def isPySpace (c : Char) : Bool :=
  c = ' ' || c = '\t' || c = '\n' || c = '\r' || c = Char.ofNat 11 || c = Char.ofNat 12

/-- Python `str.strip()` on the character list of a string. -/
def pyStrip (cs : List Char) : List Char :=
  ((cs.dropWhile isPySpace).reverse.dropWhile isPySpace).reverse

/-- The placeholder strings `to_number` maps to `0.0`
(`("", "-", "—", "–", "N/A", "NA", "nan", "None")` in the source). -/
def placeholders : List (List Char) :=
  (["", "-", "—", "–", "N/A", "NA", "nan", "None"].map String.toList)

/-- Value of a digit string read left to right (`"120"` ↦ `120`). -/
def digitsVal (ds : List Char) : ℕ :=
  ds.foldl (fun a c => 10 * a + (c.toNat - 48)) 0

/-- Exact value of the decimal literal with integer digits `ds` and
fractional digits `fs`; this is `float(ds ++ "." ++ fs)` with exact
rationals standing in for IEEE doubles. -/
def decVal (ds fs : List Char) : ℚ :=
  (digitsVal ds : ℚ) + (digitsVal fs : ℚ) / (10 : ℚ) ^ fs.length

/-- Tail of `_percent_re`: after the numeric group, `\s*%\s*$`. -/
def percentTail (v : ℚ) (cs : List Char) : Option ℚ :=
  match cs.dropWhile isPySpace with
  | '%' :: rest => if (rest.dropWhile isPySpace).isEmpty then some v else none
  | _ => none

/-- The regex group `-?`: strip one leading minus sign if present. -/
def stripNeg (cs : List Char) : Bool × List Char :=
  match cs with
  | c :: rest => if c = '-' then (true, rest) else (false, cs)
  | [] => (false, cs)

/-- The optional regex group `(\.\d+)?` followed by `\s*%\s*$`: the group
must fire exactly when a `'.'` follows the digits `ds`. -/
def parseFracPart (neg : Bool) (ds : List Char) (rest : List Char) : Option ℚ :=
  match rest with
  | c :: rest2 =>
      if c = '.' then
        let fs := rest2.takeWhile Char.isDigit
        let rest3 := rest2.dropWhile Char.isDigit
        if fs.isEmpty then none
        else percentTail (if neg then -(decVal ds fs) else decVal ds fs) rest3
      else percentTail (if neg then -(decVal ds []) else decVal ds []) rest
  | [] => percentTail (if neg then -(decVal ds []) else decVal ds []) []

/-- The regex part `\d+(\.\d+)?\s*%\s*$`, after the sign: `neg` records
the stripped sign. -/
def parsePercentDigits (neg : Bool) (cs : List Char) : Option ℚ :=
  let ds := cs.takeWhile Char.isDigit
  let rest := cs.dropWhile Char.isDigit
  if ds.isEmpty then none
  else parseFracPart neg ds rest

/-- The regex `_percent_re = ^\s*(-?\d+(\.\d+)?)\s*%\s*$` as a
deterministic matcher, returning `float(m.group(1))` on a match.  The
regex is deterministic (the optional fraction group must fire exactly
when a `'.'` follows the digits), so no backtracking is needed. -/
def matchPercent (cs : List Char) : Option ℚ :=
  let cs := cs.dropWhile isPySpace
  let (neg, cs) := stripNeg cs
  parsePercentDigits neg cs

/-- `s.replace(" ", "").replace(",", "")` followed by
`re.sub(r"[–—]", "-", s)`. -/
def normChars (cs : List Char) : List Char :=
  (cs.filter (fun c => !(c = ' ' || c = ','))).map
    (fun c => if c = '–' || c = '—' then '-' else c)

/-- Exponent suffix of a Python float literal: empty, or `[eE][+-]?digits`. -/
def parseExp (mant : ℚ) : List Char → Option ℚ
  | [] => some mant
  | c :: rest =>
      if c = 'e' || c = 'E' then
        let (esgn, rest) :=
          match rest with
          | '+' :: r => ((1 : ℤ), r)
          | '-' :: r => ((-1 : ℤ), r)
          | r => ((1 : ℤ), r)
        let es := rest.takeWhile Char.isDigit
        let rest := rest.dropWhile Char.isDigit
        if es.isEmpty || !rest.isEmpty then none
        else some (mant * (10 : ℚ) ^ (esgn * (digitsVal es : ℤ)))
      else none

/-- Python `float()` on an already-normalized string: optional sign, then
`digits[.digits*]` or `.digits`, optional exponent.  The `inf`/`nan`
spellings and digit-group underscores Python also accepts are not
modelled; no claim exercises them and the placeholder check already
catches the lowercase `"nan"`. -/
def parseFloat (cs : List Char) : Option ℚ :=
  let (sgn, cs) :=
    match cs with
    | '+' :: rest => ((1 : ℚ), rest)
    | '-' :: rest => ((-1 : ℚ), rest)
    | _ => ((1 : ℚ), cs)
  let ds := cs.takeWhile Char.isDigit
  let cs := cs.dropWhile Char.isDigit
  match cs with
  | '.' :: rest =>
      let fs := rest.takeWhile Char.isDigit
      let cs2 := rest.dropWhile Char.isDigit
      if ds.isEmpty && fs.isEmpty then none
      else parseExp (sgn * decVal ds fs) cs2
  | _ =>
      if ds.isEmpty then none
      else parseExp (sgn * decVal ds []) cs

/-- The string branch of `to_number`: strip, placeholder check, percent
regex, then normalize and `float()`, defaulting to `0.0` on failure. -/
def strToNumber (s : String) : ℚ :=
  let t := pyStrip s.toList
  if t ∈ placeholders then 0
  else
    match matchPercent t with
    | some v => v / 100
    | none =>
        match parseFloat (normChars t) with
        | some v => v
        | none => 0

/-- `to_number`: parse messy numeric cells (commas, dashes, blanks,
percent strings) to a float, defaulting to `0.0`.  Booleans are excluded
from the numeric fast path (`isinstance(x, bool)` guard) and fall through
to string parsing of `"True"`/`"False"`. -/
def to_number (x : Value) : ℚ :=
  match x with
  | .null => 0
  | .num q => q
  | .nan => 0
  | .bool b => strToNumber (pyStr (.bool b))
  | .str s => strToNumber s

/-- `safe_div`: `a / b`, or `0.0` when `b` is zero. -/
def safe_div (a b : ℚ) : ℚ :=
  if b = 0 then 0 else a / b

/-- Python `int()` on a float: truncation toward zero. -/
def pyInt (q : ℚ) : ℤ :=
  q.num.tdiv q.den

/-- Python slice `l[:n]`, including the negative-`n` case
(`l[:-k]` drops the last `k` elements). -/
def pySliceTo {α : Type} (l : List α) (n : ℤ) : List α :=
  if 0 ≤ n then l.take n.toNat else l.take (l.length - (-n).toNat)

/-- `short_label(x, max_len)`: stringify (`""` for `None`), strip; keep if
within `max_len`, else truncate to `max_len - 1` characters and append an
ellipsis. -/
def short_label (x : Value) (maxLen : ℤ) : String :=
  let s : String :=
    match x with
    | .null => ""
    | v => String.mk (pyStrip (pyStr v).toList)
  if (s.length : ℤ) ≤ maxLen then s
  else String.mk (pySliceTo s.toList (maxLen - 1)) ++ "…"

/-- A row of the dataset: a Python dict from column name to cell value,
as an association list in insertion order with (by construction) unique
keys. -/
abbrev Row := List (String × Value)

/-- `r.get(k)` with its `None` default: the value of the first matching
key, or `null` when the key is absent. -/
def rowGet (r : Row) (k : String) : Value :=
  match r.find? (fun p => p.1 = k) with
  | some p => p.2
  | none => .null

/-- `r.get(k, d)` with an explicit default. -/
def rowGetD (r : Row) (k : String) (d : Value) : Value :=
  match r.find? (fun p => p.1 = k) with
  | some p => p.2
  | none => d

/-- `k in r.keys()`. -/
def rowHasKey (r : Row) (k : String) : Bool :=
  r.any (fun p => p.1 = k)

/-- `k in dataset_keys` where `dataset_keys = set().union(*(r.keys() for r
in rows))`: membership in the union of keys across all rows. -/
def keyInDataset (rows : List Row) (k : String) : Bool :=
  rows.any (fun r => rowHasKey r k)

/-- The union of keys across all rows as a duplicate-free list (the set
`present` of `require_keys_in_dataset`). -/
def presentKeys (rows : List Row) : List String :=
  ((rows.map (fun r => r.map Prod.fst)).flatten).dedup

/-- A dict from names to `α` (column maps, thresholds) in insertion
order. -/
abbrev Dict (α : Type) := List (String × α)

/-- Lookup in a dict. -/
def dlookup {α : Type} (d : Dict α) (k : String) : Option α :=
  (d.find? (fun p => p.1 = k)).map Prod.snd

/-- `d[k]` on a column map.  The source raises `KeyError` when `k` is
absent; every call site passes a dict merged over `DEFAULT_COLS`, which
holds all accessed keys, so that branch is unreachable and the model
returns a junk default there. -/
def dget (d : Dict String) (k : String) : String :=
  (dlookup d k).getD ""

/-- `thr[k]` on a threshold map; same unreachable-`KeyError` note as
`dget`.  `int(...)`/`float(...)` conversions at use sites are `pyInt` and
the identity. -/
def qget (d : Dict ℚ) (k : String) : ℚ :=
  (dlookup d k).getD 0

/-- `d[k] = v` on a dict: replace the value of an existing key in place,
else append the new key (Python dict insertion order). -/
def dictSet {α : Type} : Dict α → String → α → Dict α
  | [], k, v => [(k, v)]
  | p :: rest, k, v =>
      if p.1 = k then (k, v) :: rest else p :: dictSet rest k v

/-- `d.update(o)`: `d[k] = v` for each pair of `o` in order. -/
def dictUpdate {α : Type} (d o : Dict α) : Dict α :=
  o.foldl (fun d p => dictSet d p.1 p.2) d

/-- `DEFAULT_COLS`: the built-in logical-to-physical column-name map. -/
def DEFAULT_COLS : Dict String :=
  [("total_cost", "TOTAL COST"),
   ("sela_fees", "SELA FEES"),
   ("wht", "WHT"),
   ("vat_amount", "VAT AMOUNT"),
   ("total_budget", "TOTAL BUDGET"),
   ("actual_pr", "ACTUAL PR"),
   ("actual_po", "ACTUAL PO"),
   ("vat_pct", "VAT %"),
   ("sela_pct", "SELA FEES %"),
   ("line_desc", "BUDGET LINE ITEM DESCRIPTION"),
   ("line_no", "BUDGET LINE ITEM #"),
   ("category", "CATEGORY"),
   ("vendor", "VENDOR"),
   ("project", "PROJECT NAME"),
   ("bu", "BU")]

/-- `DEFAULT_THRESHOLDS` (`0.05 = 1/20` exactly). -/
def DEFAULT_THRESHOLDS : Dict ℚ :=
  [("top_n", 10),
   ("vat_expected_min", 1000),
   ("vat_diff_abs_min", 5000),
   ("vat_diff_pct_min", 5 / 100),
   ("max_label_len", 80)]

/-- The optional `config` body: optional `columns` and `thresholds`
override dicts (`config.get("columns", {}) or {}` collapses a missing,
`None` or empty sub-dict to the empty overlay). -/
structure Config where
  columns : Option (Dict String)
  thresholds : Option (Dict ℚ)

/-- `get_cols_and_thresholds`: overlay the caller's overrides onto copies
of the defaults. -/
def get_cols_and_thresholds (config : Option Config) : Dict String × Dict ℚ :=
  let cols := DEFAULT_COLS
  let thr := DEFAULT_THRESHOLDS
  match config with
  | none => (cols, thr)
  | some cfg =>
      (dictUpdate cols (cfg.columns.getD []), dictUpdate thr (cfg.thresholds.getD []))

/-- The module-level mutable state: the two default dicts.  Mutation is
modelled by explicit state passing; `.copy()` in the source is a read of
this state, after which updates act on the copy only. -/
structure ModuleState where
  default_cols : Dict String
  default_thr : Dict ℚ
deriving DecidableEq

/-- The state at process start. -/
def initModuleState : ModuleState :=
  ⟨DEFAULT_COLS, DEFAULT_THRESHOLDS⟩

/-- `get_cols_and_thresholds` with the module state passed explicitly:
`DEFAULT_COLS.copy()` / `DEFAULT_THRESHOLDS.copy()` read the state, the
`update` calls act on the copies, and the state is handed back. -/
def get_cols_and_thresholds_st (config : Option Config) (st : ModuleState) :
    (Dict String × Dict ℚ) × ModuleState :=
  let cols := st.default_cols
  let thr := st.default_thr
  match config with
  | none => ((cols, thr), st)
  | some cfg =>
      ((dictUpdate cols (cfg.columns.getD []), dictUpdate thr (cfg.thresholds.getD [])), st)

/-- The payload of the 422 `HTTPException` raised on missing columns. -/
structure MissingColumnsError where
  error : String
  missing : List String
  hint : String
  present_sample : List String
deriving DecidableEq, Repr

/-- Python `sorted` on strings: stable, and on duplicate-free input the
unique ≤-sorted arrangement; `insertionSort` computes the same list. -/
def sortedStrings (l : List String) : List String :=
  l.insertionSort (fun a b => a ≤ b)

/-- `require_keys_in_dataset`: `some` error when any required key is
missing from the union of row keys, `none` when all are present. -/
def require_keys_in_dataset (rows : List Row) (required_keys : List String) :
    Option MissingColumnsError :=
  let present := presentKeys rows
  let missing := required_keys.filter (fun k => !(present.contains k))
  if missing.isEmpty then none
  else
    some
      { error := "Missing required columns in input rows",
        missing := missing,
        hint := "Fix your headers OR pass config.columns overrides.",
        present_sample := (sortedStrings present).take 60 }

/-- The group label of a row: `str(r.get(group_key, "")).strip()`. -/
def rowLabel (group_key : String) (r : Row) : String :=
  String.mk (pyStrip (pyStr (rowGetD r group_key (.str ""))).toList)

/-- `out[k] = out.get(k, 0.0) + v`: add to an existing group in place, or
append a new group. -/
def upsertAdd : List (String × ℚ) → String → ℚ → List (String × ℚ)
  | [], k, v => [(k, v)]
  | p :: rest, k, v =>
      if p.1 = k then (p.1, p.2 + v) :: rest else p :: upsertAdd rest k v

/-- `group_sum(rows, group_key, value_key)`: per-label sums of the
normalized values, labels in order of first appearance. -/
def group_sum (rows : List Row) (group_key value_key : String) : List (String × ℚ) :=
  rows.foldl
    (fun out r => upsertAdd out (rowLabel group_key r) (to_number (rowGet r value_key))) []

/-- One VAT-basis anomaly flag. -/
structure VatFlag where
  line_item : String
  vat_pct : ℚ
  expected_vat : ℚ
  actual_vat : ℚ
  diff : ℚ
  diff_pct : ℚ
deriving DecidableEq, Repr

/-- The `kpis` object of the report. -/
structure Kpis where
  base_cost : ℚ
  sela_fees : ℚ
  wht : ℚ
  vat : ℚ
  total_budget : ℚ
  actual_pr : ℚ
  remaining_pr : ℚ
  actual_po : ℚ
  remaining_po : ℚ
  add_ons : ℚ
  uplift_pct : ℚ
deriving DecidableEq, Repr

/-- The `flags.data_quality` counters (`missing_vat_pct_rows` is `None`
when the VAT-percent column is absent from the dataset). -/
structure DataQuality where
  rows_total : ℕ
  zero_total_budget_rows : ℕ
  zero_actual_pr_rows : ℕ
  zero_actual_po_rows : ℕ
  missing_line_item_label_rows : ℕ
  missing_vat_pct_rows : Option ℕ
deriving DecidableEq, Repr

/-- The `meta` object of the report (`columns_used` is the `cols` dict
plus the two derived entries, kept here as the derived entries and the
echoed thresholds). -/
structure Meta where
  input_rows : ℕ
  line_item_label_used : String
  project_resolved : String
  project_used : String
  thresholds : Dict ℚ
deriving DecidableEq, Repr

/-- The insights report.  The `bullets` and `chart_suggestions` fields of
the source are fixed-template strings and chart specs interpolating the
aggregates already recorded in the other fields; they add no computation
and are not modelled. -/
structure Report where
  meta : Meta
  kpis : Kpis
  top_drivers_total_budget : List (String × ℚ)
  top_remaining_pr : List (String × ℚ)
  by_category_total_budget : Option (List (String × ℚ))
  by_vendor_total_budget : Option (List (String × ℚ))
  by_project_total_budget : Option (List (String × ℚ))
  vat_basis_flags : List VatFlag
  data_quality : DataQuality
deriving DecidableEq, Repr

/-- The six required physical column names, in source order. -/
def requiredCols (cols : Dict String) : List String :=
  [dget cols "total_cost", dget cols "sela_fees", dget cols "vat_amount",
   dget cols "total_budget", dget cols "actual_pr", dget cols "actual_po"]

/-- The resolved project column: the configured name, replaced by the
literal `"PROJECT_NAME"` when the configured name is absent from the
dataset keys and `"PROJECT_NAME"` is present. -/
def projectKey (rows : List Row) (cols : Dict String) : String :=
  if !keyInDataset rows (dget cols "project") && keyInDataset rows "PROJECT_NAME" then
    "PROJECT_NAME"
  else dget cols "project"

/-- The line-item label column: the description column when present among
the dataset keys, else the line-number column. -/
def lineLabelKey (rows : List Row) (cols : Dict String) : String :=
  if keyInDataset rows (dget cols "line_desc") then dget cols "line_desc"
  else dget cols "line_no"

/-- `sum(to_number(r.get(key)) for r in rows)`. -/
def colSum (rows : List Row) (key : String) : ℚ :=
  (rows.map (fun r => to_number (rowGet r key))).sum

/-- `base_cost`. -/
def baseCost (rows : List Row) (cols : Dict String) : ℚ :=
  colSum rows (dget cols "total_cost")

/-- `sela_fees`. -/
def selaFeesSum (rows : List Row) (cols : Dict String) : ℚ :=
  colSum rows (dget cols "sela_fees")

/-- `wht`, `0.0` when its column is absent from the dataset. -/
def whtSum (rows : List Row) (cols : Dict String) : ℚ :=
  if keyInDataset rows (dget cols "wht") then colSum rows (dget cols "wht") else 0

/-- `vat`. -/
def vatSum (rows : List Row) (cols : Dict String) : ℚ :=
  colSum rows (dget cols "vat_amount")

/-- `total_budget`. -/
def totalBudgetSum (rows : List Row) (cols : Dict String) : ℚ :=
  colSum rows (dget cols "total_budget")

/-- `actual_pr`. -/
def actualPrSum (rows : List Row) (cols : Dict String) : ℚ :=
  colSum rows (dget cols "actual_pr")

/-- `actual_po`. -/
def actualPoSum (rows : List Row) (cols : Dict String) : ℚ :=
  colSum rows (dget cols "actual_po")

/-- `add_ons = max(total_budget - base_cost, 0.0)`. -/
def addOns (rows : List Row) (cols : Dict String) : ℚ :=
  max (totalBudgetSum rows cols - baseCost rows cols) 0

/-- The `kpis` block. -/
def kpisOf (rows : List Row) (cols : Dict String) : Kpis :=
  { base_cost := baseCost rows cols,
    sela_fees := selaFeesSum rows cols,
    wht := whtSum rows cols,
    vat := vatSum rows cols,
    total_budget := totalBudgetSum rows cols,
    actual_pr := actualPrSum rows cols,
    remaining_pr := max (totalBudgetSum rows cols - actualPrSum rows cols) 0,
    actual_po := actualPoSum rows cols,
    remaining_po := max (totalBudgetSum rows cols - actualPoSum rows cols) 0,
    add_ons := addOns rows cols,
    uplift_pct := safe_div (addOns rows cols) (baseCost rows cols) }

/-- Python `sorted(l, key=lambda kv: kv[1], reverse=True)`: stable
descending by value; `insertionSort` with this comparison computes the
same list. -/
def sortDescSnd (l : List (String × ℚ)) : List (String × ℚ) :=
  l.insertionSort (fun a b => b.2 ≤ a.2)

/-- `top_drivers`: group-sum total budget by line label, sort descending,
slice to `top_n`. -/
def topDriversOf (rows : List Row) (cols : Dict String) (thr : Dict ℚ) :
    List (String × ℚ) :=
  pySliceTo (sortDescSnd (group_sum rows (lineLabelKey rows cols) (dget cols "total_budget")))
    (pyInt (qget thr "top_n"))

/-- `remaining_by_line`: per-label sums of `max(tb - pr, 0.0)`. -/
def remainingByLine (rows : List Row) (cols : Dict String) : List (String × ℚ) :=
  rows.foldl
    (fun out r =>
      upsertAdd out (rowLabel (lineLabelKey rows cols) r)
        (max (to_number (rowGet r (dget cols "total_budget")) -
              to_number (rowGet r (dget cols "actual_pr"))) 0)) []

/-- `top_remaining_pr`. -/
def topRemainingPrOf (rows : List Row) (cols : Dict String) (thr : Dict ℚ) :
    List (String × ℚ) :=
  pySliceTo (sortDescSnd (remainingByLine rows cols)) (pyInt (qget thr "top_n"))

/-- The body of the VAT-flag loop for one row: `none` when the row is
skipped (non-positive percent, or expected below the noise floor, or
within both tolerances), `some` flag otherwise. -/
def vatFlagOfRow (cols : Dict String) (thr : Dict ℚ) (line_label_key : String)
    (r : Row) : Option VatFlag :=
  let vat_pct := to_number (rowGet r (dget cols "vat_pct"))
  if vat_pct ≤ 0 then none
  else
    let base := to_number (rowGet r (dget cols "total_cost"))
    let fees := to_number (rowGet r (dget cols "sela_fees"))
    let expected := vat_pct * (base + fees)
    if expected < qget thr "vat_expected_min" then none
    else
      let actual := to_number (rowGet r (dget cols "vat_amount"))
      let diff := actual - expected
      let diff_pct := safe_div diff expected
      if |diff| ≥ qget thr "vat_diff_abs_min" ∨ |diff_pct| ≥ qget thr "vat_diff_pct_min" then
        some
          { line_item := short_label (rowGet r line_label_key) (pyInt (qget thr "max_label_len")),
            vat_pct := vat_pct,
            expected_vat := expected,
            actual_vat := actual,
            diff := diff,
            diff_pct := diff_pct }
      else none

/-- `vat_flags.sort(key=lambda x: abs(x["diff"]), reverse=True)`: stable
descending by `|diff|`. -/
def sortFlagsDesc (l : List VatFlag) : List VatFlag :=
  l.insertionSort (fun a b => |b.diff| ≤ |a.diff|)

/-- The `vat_basis_flags` list: empty when the VAT-percent column is
absent from the dataset, else the per-row flags in row order, sorted
descending by `|diff|` and truncated to the top 15. -/
def vatFlagsOf (rows : List Row) (cols : Dict String) (thr : Dict ℚ) : List VatFlag :=
  if keyInDataset rows (dget cols "vat_pct") then
    (sortFlagsDesc (rows.filterMap (vatFlagOfRow cols thr (lineLabelKey rows cols)))).take 15
  else []

/-- `count_zero`. -/
def count_zero (rows : List Row) (key : String) : ℕ :=
  (rows.filter (fun r => to_number (rowGet r key) = 0)).length

/-- The sentinels of `count_missing`: `r.get(key) in (None, "", "-", "—",
"–")` (`None` covers both an absent key and a null cell). -/
def isMissingCell (v : Value) : Bool :=
  v = .null || v = .str "" || v = .str "-" || v = .str "—" || v = .str "–"

/-- `count_missing`. -/
def count_missing (rows : List Row) (key : String) : ℕ :=
  (rows.filter (fun r => isMissingCell (rowGet r key))).length

/-- The `data_quality` block. -/
def dataQualityOf (rows : List Row) (cols : Dict String) : DataQuality :=
  { rows_total := rows.length,
    zero_total_budget_rows := count_zero rows (dget cols "total_budget"),
    zero_actual_pr_rows := count_zero rows (dget cols "actual_pr"),
    zero_actual_po_rows := count_zero rows (dget cols "actual_po"),
    missing_line_item_label_rows := count_missing rows (lineLabelKey rows cols),
    missing_vat_pct_rows :=
      if keyInDataset rows (dget cols "vat_pct") then
        some (count_missing rows (dget cols "vat_pct"))
      else none }

/-- One optional breakdown: group-sum the value column by `gkey`, keep
non-empty labels, sort descending, truncate to 25; present only when
`gkey` exists in the dataset. -/
def breakdownOf (rows : List Row) (gkey vkey : String) : Option (List (String × ℚ)) :=
  if keyInDataset rows gkey then
    some ((sortDescSnd ((group_sum rows gkey vkey).filter (fun p => p.1 ≠ ""))).take 25)
  else none

/-- The success branch of `compute_insights`: the full report. -/
def buildReport (rows : List Row) (cols : Dict String) (thr : Dict ℚ) : Report :=
  { meta :=
      { input_rows := rows.length,
        line_item_label_used := lineLabelKey rows cols,
        project_resolved := dget cols "project",
        project_used := projectKey rows cols,
        thresholds := thr },
    kpis := kpisOf rows cols,
    top_drivers_total_budget := topDriversOf rows cols thr,
    top_remaining_pr := topRemainingPrOf rows cols thr,
    by_category_total_budget := breakdownOf rows (dget cols "category") (dget cols "total_budget"),
    by_vendor_total_budget := breakdownOf rows (dget cols "vendor") (dget cols "total_budget"),
    by_project_total_budget := breakdownOf rows (projectKey rows cols) (dget cols "total_budget"),
    vat_basis_flags := vatFlagsOf rows cols thr,
    data_quality := dataQualityOf rows cols }

/-- `compute_insights`: validate the six required columns against the
union of row keys, failing with the structured 422 payload before any
aggregation; on success assemble the report. -/
def compute_insights (rows : List Row) (cols : Dict String) (thr : Dict ℚ) :
    Except MissingColumnsError Report :=
  match require_keys_in_dataset rows (requiredCols cols) with
  | some e => .error e
  | none => .ok (buildReport rows cols thr)

/-- `compute_insights` with the rows list and module state passed
explicitly: the source only reads the rows (`r.get`, `r.keys`, iteration)
and never touches the module dicts, so both come back unchanged. -/
def compute_insights_st (rows : List Row) (cols : Dict String) (thr : Dict ℚ)
    (st : ModuleState) :
    Except MissingColumnsError Report × List Row × ModuleState :=
  (compute_insights rows cols thr, rows, st)

/-- The single-row end-to-end dataset of §8 of the spec. -/
def rowsE2E : List Row :=
  [[("TOTAL COST", .str "1,000"), ("SELA FEES", .str "50"), ("WHT", .str "0"),
    ("VAT AMOUNT", .str "157.5"), ("TOTAL BUDGET", .str "1207.5"),
    ("ACTUAL PR", .str "1000"), ("ACTUAL PO", .str "900"), ("VAT %", .str "15%")]]

example :
    (compute_insights rowsE2E DEFAULT_COLS DEFAULT_THRESHOLDS).toOption.map
      (fun rep => (rep.kpis.base_cost, rep.kpis.total_budget, rep.kpis.add_ons,
        rep.vat_basis_flags)) =
    some (1000, 1207.5, 207.5, []) := by decide

example : to_number (.str "12%") = 12 / 100 := by decide
example : to_number (.str "1,234.50") = 12345 / 10 := by decide
example : to_number (.str "  7 ") = 7 := by decide
example : to_number (.str "abc") = 0 := by decide
example : to_number (.bool true) = 0 := by decide
example : to_number (.str "+12%") = 0 := by decide
example : to_number (.str " -3.5 ") = -7 / 2 := by decide
example : to_number (.str "1e3") = 1000 := by decide
example : short_label (.str "abcdef") 4 = "abc…" := by decide
example : short_label (.str "ab") 4 = "ab" := by decide

/-! ### Shared lemmas -/

theorem dlookup_cons {α : Type} (p : String × α) (rest : Dict α) (k : String) :
    dlookup (p :: rest) k = if p.1 = k then some p.2 else dlookup rest k := by
  by_cases h : p.1 = k
  · simp [dlookup, List.find?_cons_of_pos, h]
  · simp [dlookup, List.find?_cons_of_neg, h]

theorem compute_insights_ok_eq {rows : List Row} {cols : Dict String} {thr : Dict ℚ}
    {rep : Report} (h : compute_insights rows cols thr = .ok rep) :
    rep = buildReport rows cols thr := by
  unfold compute_insights at h
  cases hreq : require_keys_in_dataset rows (requiredCols cols) <;> rw [hreq] at h
  · exact (Except.ok.inj h).symm
  · exact Except.noConfusion h

theorem mem_presentKeys_iff (rows : List Row) (k : String) :
    k ∈ presentKeys rows ↔ keyInDataset rows k = true := by
  simp only [presentKeys, keyInDataset, rowHasKey, List.mem_dedup, List.mem_flatten,
    List.mem_map, List.any_eq_true, decide_eq_true_eq]
  constructor
  · rintro ⟨l, ⟨r, hr, rfl⟩, hk⟩
    obtain ⟨p, hp, rfl⟩ := List.mem_map.mp hk
    exact ⟨r, hr, p, hp, rfl⟩
  · rintro ⟨r, hr, p, hp, rfl⟩
    exact ⟨r.map Prod.fst, ⟨r, hr, rfl⟩, List.mem_map_of_mem _ hp⟩

theorem require_keys_eq (rows : List Row) (required : List String) :
    require_keys_in_dataset rows required =
      if (required.filter (fun k => !((presentKeys rows).contains k))).isEmpty then none
      else
        some
          { error := "Missing required columns in input rows",
            missing := required.filter (fun k => !((presentKeys rows).contains k)),
            hint := "Fix your headers OR pass config.columns overrides.",
            present_sample := (sortedStrings (presentKeys rows)).take 60 } := rfl

theorem contains_false_iff (l : List String) (k : String) : l.contains k = false ↔ k ∉ l := by
  rw [← Bool.not_eq_true]
  exact not_congr List.elem_iff

theorem mem_required_filter_iff (rows : List Row) (cols : Dict String) (k : String) :
    k ∈ (requiredCols cols).filter (fun k => !((presentKeys rows).contains k)) ↔
      k ∈ requiredCols cols ∧ keyInDataset rows k = false := by
  simp only [List.mem_filter, Bool.not_eq_true', contains_false_iff, mem_presentKeys_iff,
    Bool.not_eq_true]

/-! ### Claims -/

/-- C2: `compute_insights` fails with the structured 422 error exactly
when one of the six required physical column names is absent from the
union of row keys; the error carries the missing names (in required-list
order) and the first 60 of the sorted present names, and no report is
produced on failure. -/
theorem C2_missing_columns_error (rows : List Row) (cols : Dict String) (thr : Dict ℚ) :
    ((∃ e, compute_insights rows cols thr = .error e) ↔
      ∃ k ∈ requiredCols cols, keyInDataset rows k = false)
    ∧ ∀ e, compute_insights rows cols thr = .error e →
        e.missing = (requiredCols cols).filter (fun k => !((presentKeys rows).contains k))
        ∧ e.missing ≠ []
        ∧ (∀ k, k ∈ e.missing ↔ k ∈ requiredCols cols ∧ keyInDataset rows k = false)
        ∧ e.present_sample = (sortedStrings (presentKeys rows)).take 60
        ∧ List.Sorted (fun a b => a ≤ b) (sortedStrings (presentKeys rows))
        ∧ (sortedStrings (presentKeys rows)).Perm (presentKeys rows)
        ∧ (∀ k, k ∈ presentKeys rows ↔ keyInDataset rows k = true)
        ∧ ∀ rep, compute_insights rows cols thr ≠ .ok rep := by
  cases hreq : require_keys_in_dataset rows (requiredCols cols) with
  | none =>
      have hcmp : compute_insights rows cols thr = .ok (buildReport rows cols thr) := by
        unfold compute_insights
        rw [hreq]
      have hm : (requiredCols cols).filter (fun k => !((presentKeys rows).contains k)) = [] := by
        rw [require_keys_eq] at hreq
        split at hreq
        · next h => exact List.isEmpty_iff.mp h
        · exact Option.noConfusion hreq
      constructor
      · constructor
        · rintro ⟨e, he⟩
          rw [hcmp] at he
          exact Except.noConfusion he
        · rintro ⟨k, hk, hnot⟩
          have : k ∈ (requiredCols cols).filter (fun k => !((presentKeys rows).contains k)) :=
            (mem_required_filter_iff rows cols k).mpr ⟨hk, hnot⟩
          rw [hm] at this
          exact absurd this (List.not_mem_nil k)
      · intro e he
        rw [hcmp] at he
        exact Except.noConfusion he
  | some e0 =>
      have hcmp : compute_insights rows cols thr = .error e0 := by
        unfold compute_insights
        rw [hreq]
      have hkey : ((requiredCols cols).filter (fun k => !((presentKeys rows).contains k))).isEmpty
            = false
          ∧ e0 =
            { error := "Missing required columns in input rows",
              missing := (requiredCols cols).filter (fun k => !((presentKeys rows).contains k)),
              hint := "Fix your headers OR pass config.columns overrides.",
              present_sample := (sortedStrings (presentKeys rows)).take 60 } := by
        rw [require_keys_eq] at hreq
        split at hreq
        · exact Option.noConfusion hreq
        · next h => exact ⟨eq_false_of_ne_true h, (Option.some.inj hreq).symm⟩
      obtain ⟨hc, he0⟩ := hkey
      have hmne : (requiredCols cols).filter (fun k => !((presentKeys rows).contains k)) ≠ [] := by
        intro h
        rw [h] at hc
        simp at hc
      constructor
      · constructor
        · rintro -
          obtain ⟨k, hk⟩ := List.exists_mem_of_ne_nil _ hmne
          exact ⟨k, (mem_required_filter_iff rows cols k).mp hk⟩
        · rintro -
          exact ⟨e0, hcmp⟩
      · intro e he
        rw [hcmp] at he
        obtain rfl : e0 = e := Except.error.inj he
        subst he0
        refine ⟨rfl, hmne, fun k => mem_required_filter_iff rows cols k, rfl, ?_, ?_, ?_, ?_⟩
        · exact List.sorted_insertionSort _ _
        · exact List.perm_insertionSort _ _
        · exact fun k => mem_presentKeys_iff rows k
        · intro rep h
          rw [hcmp] at h
          exact Except.noConfusion h

/-- A dataset whose single row lacks five of the six required columns. -/
def rowsMissing : List Row := [[("SELA FEES", .str "50")]]

/-- The 422 payload `compute_insights` produces on `rowsMissing`. -/
def errMissing : MissingColumnsError :=
  { error := "Missing required columns in input rows",
    missing := ["TOTAL COST", "VAT AMOUNT", "TOTAL BUDGET", "ACTUAL PR", "ACTUAL PO"],
    hint := "Fix your headers OR pass config.columns overrides.",
    present_sample := ["SELA FEES"] }

/-- Witness for C2: on `rowsMissing` the validation error fires with a
non-empty missing list and the present-column sample. -/
theorem C2_witness :
    errMissing.missing ≠ [] ∧ errMissing.present_sample = ["SELA FEES"] :=
  have h := (C2_missing_columns_error rowsMissing DEFAULT_COLS DEFAULT_THRESHOLDS).2
    errMissing rfl
  ⟨h.2.1, by rw [h.2.2.2.1]; decide⟩

/-- C3: the end-to-end single-row dataset under the default column map
and thresholds yields `base_cost = 1000`, `total_budget = 1207.5`,
`add_ons = 207.5` and no VAT-basis flags. -/
theorem C3_end_to_end :
    (compute_insights rowsE2E DEFAULT_COLS DEFAULT_THRESHOLDS).toOption.map
      (fun rep => (rep.kpis.base_cost, rep.kpis.total_budget, rep.kpis.add_ons,
        rep.vat_basis_flags)) = some (1000, 1207.5, 207.5, ([] : List VatFlag)) := by
  decide

/-- C7: for every dataset passing required-column validation the KPIs
satisfy the `max(..., 0)` derivations, `uplift_pct` is the guarded ratio
of `add_ons` to `base_cost`, and the three derived KPIs are
nonnegative. -/
theorem C7_kpi_derivations (rows : List Row) (cols : Dict String) (thr : Dict ℚ) (rep : Report)
    (h : compute_insights rows cols thr = .ok rep) :
    rep.kpis.remaining_pr = max (rep.kpis.total_budget - rep.kpis.actual_pr) 0
    ∧ rep.kpis.remaining_po = max (rep.kpis.total_budget - rep.kpis.actual_po) 0
    ∧ rep.kpis.add_ons = max (rep.kpis.total_budget - rep.kpis.base_cost) 0
    ∧ (rep.kpis.base_cost = 0 → rep.kpis.uplift_pct = 0)
    ∧ (rep.kpis.base_cost ≠ 0 → rep.kpis.uplift_pct = rep.kpis.add_ons / rep.kpis.base_cost)
    ∧ 0 ≤ rep.kpis.remaining_pr ∧ 0 ≤ rep.kpis.remaining_po ∧ 0 ≤ rep.kpis.add_ons := by
  obtain rfl := compute_insights_ok_eq h
  refine ⟨rfl, rfl, rfl, ?_, ?_, le_max_right _ _, le_max_right _ _, le_max_right _ _⟩
  · intro h0
    show safe_div (addOns rows cols) (baseCost rows cols) = 0
    have hb : baseCost rows cols = 0 := h0
    rw [hb]
    simp [safe_div]
  · intro h0
    have hb : ¬ baseCost rows cols = 0 := h0
    show safe_div (addOns rows cols) (baseCost rows cols) = _
    rw [safe_div, if_neg hb]
    rfl

/-- Witness for C7 at the end-to-end dataset. -/
theorem C7_witness :
    (buildReport rowsE2E DEFAULT_COLS DEFAULT_THRESHOLDS).kpis.remaining_pr =
      max ((buildReport rowsE2E DEFAULT_COLS DEFAULT_THRESHOLDS).kpis.total_budget -
        (buildReport rowsE2E DEFAULT_COLS DEFAULT_THRESHOLDS).kpis.actual_pr) 0
    ∧ 0 ≤ (buildReport rowsE2E DEFAULT_COLS DEFAULT_THRESHOLDS).kpis.add_ons :=
  have h := C7_kpi_derivations rowsE2E DEFAULT_COLS DEFAULT_THRESHOLDS
    (buildReport rowsE2E DEFAULT_COLS DEFAULT_THRESHOLDS) rfl
  ⟨h.1, h.2.2.2.2.2.2.2⟩

/-- C5: `to_number` is total by construction in this embedding (it is a
Lean function into `ℚ`); it yields exactly `0` on null, on NaN floats, on
every string whose stripped form is a placeholder, on both booleans
(excluded from the numeric fast path, their stringifications fail the
float parse), and on any string that reaches the final float parse and
fails it. -/
theorem C5_to_number_safe :
    to_number .null = 0
    ∧ to_number .nan = 0
    ∧ (∀ s : String, pyStrip s.toList ∈ placeholders → to_number (.str s) = 0)
    ∧ to_number (.bool true) = 0
    ∧ to_number (.bool false) = 0
    ∧ (∀ s : String, pyStrip s.toList ∉ placeholders →
        matchPercent (pyStrip s.toList) = none →
        parseFloat (normChars (pyStrip s.toList)) = none →
        to_number (.str s) = 0) := by
  refine ⟨rfl, rfl, ?_, by decide, by decide, ?_⟩
  · intro s h
    have h' : pyStrip s.data ∈ placeholders := h
    show strToNumber s = 0
    simp [strToNumber, h']
  · intro s h1 h2 h3
    have h1' : pyStrip s.data ∉ placeholders := h1
    have h2' : matchPercent (pyStrip s.data) = none := h2
    have h3' : parseFloat (normChars (pyStrip s.data)) = none := h3
    show strToNumber s = 0
    simp [strToNumber, h1', h2', h3']

/-- Witness for C5: a placeholder after stripping, and an unparseable
string. -/
theorem C5_witness :
    to_number (.str "  - ") = 0 ∧ to_number (.str "abc") = 0 :=
  ⟨C5_to_number_safe.2.2.1 "  - " (by decide),
   C5_to_number_safe.2.2.2.2.2 "abc" (by decide) (by decide) (by decide)⟩

/-- C9 counterexample: the built-in logical column map has 15 distinct
entries, not 14 as claimed. -/
theorem C9_counterexample :
    (DEFAULT_COLS.map Prod.fst).Nodup ∧ DEFAULT_COLS.length = 15 ∧ DEFAULT_COLS.length ≠ 14 := by
  decide

/-- C9 amended: the built-in logical column-name set is fixed at 15
entries, and resolution never invents logical names: the only fallbacks
are the literal `"PROJECT_NAME"` for the project column and the
line-number column for the line label, and the report's meta fields are
exactly these resolved keys. -/
theorem C9_amended_fixed_cols :
    DEFAULT_COLS.length = 15
    ∧ (DEFAULT_COLS.map Prod.fst).Nodup
    ∧ (∀ (rows : List Row) (cols : Dict String),
        projectKey rows cols = dget cols "project"
        ∨ (projectKey rows cols = "PROJECT_NAME"
           ∧ keyInDataset rows (dget cols "project") = false
           ∧ keyInDataset rows "PROJECT_NAME" = true))
    ∧ (∀ (rows : List Row) (cols : Dict String),
        (lineLabelKey rows cols = dget cols "line_desc"
         ∧ keyInDataset rows (dget cols "line_desc") = true)
        ∨ (lineLabelKey rows cols = dget cols "line_no"
           ∧ keyInDataset rows (dget cols "line_desc") = false))
    ∧ (∀ (rows : List Row) (cols : Dict String) (thr : Dict ℚ) (rep : Report),
        compute_insights rows cols thr = .ok rep →
          rep.meta.project_used = projectKey rows cols
          ∧ rep.meta.line_item_label_used = lineLabelKey rows cols) := by
  refine ⟨by decide, by decide, ?_, ?_, ?_⟩
  · intro rows cols
    by_cases h1 : keyInDataset rows (dget cols "project") = true
    · left
      simp [projectKey, h1]
    · by_cases h2 : keyInDataset rows "PROJECT_NAME" = true
      · right
        exact ⟨by simp [projectKey, eq_false_of_ne_true h1, h2], eq_false_of_ne_true h1, h2⟩
      · left
        simp [projectKey, eq_false_of_ne_true h1, eq_false_of_ne_true h2]
  · intro rows cols
    by_cases h : keyInDataset rows (dget cols "line_desc") = true
    · left
      exact ⟨by simp [lineLabelKey, h], h⟩
    · right
      exact ⟨by simp [lineLabelKey, eq_false_of_ne_true h], eq_false_of_ne_true h⟩
  · intro rows cols thr rep h
    obtain rfl := compute_insights_ok_eq h
    exact ⟨rfl, rfl⟩

/-- Witness for C9's resolved-keys conjunct at the end-to-end dataset. -/
theorem C9_witness :
    (buildReport rowsE2E DEFAULT_COLS DEFAULT_THRESHOLDS).meta.project_used =
      projectKey rowsE2E DEFAULT_COLS
    ∧ (buildReport rowsE2E DEFAULT_COLS DEFAULT_THRESHOLDS).meta.line_item_label_used =
      lineLabelKey rowsE2E DEFAULT_COLS :=
  C9_amended_fixed_cols.2.2.2.2 rowsE2E DEFAULT_COLS DEFAULT_THRESHOLDS _ rfl

theorem dlookup_dictSet {α : Type} (d : Dict α) (k' : String) (v : α) (k : String) :
    dlookup (dictSet d k' v) k = if k = k' then some v else dlookup d k := by
  induction d with
  | nil =>
      by_cases h : k = k'
      · subst h
        simp [dictSet, dlookup_cons]
      · have h2 : ¬ k' = k := fun hh => h hh.symm
        simp [dictSet, dlookup_cons, dlookup, h, h2]
  | cons p rest ih =>
      rw [dictSet]
      by_cases hp : p.1 = k'
      · rw [if_pos hp, dlookup_cons, dlookup_cons]
        by_cases hk : k' = k
        · rw [if_pos hk, if_pos hk.symm]
        · rw [if_neg hk, if_neg (fun h => hk h.symm),
            if_neg (fun h : p.1 = k => hk (hp.symm.trans h))]
      · rw [if_neg hp, dlookup_cons, ih, dlookup_cons]
        by_cases hpk : p.1 = k
        · have hkk : ¬ k = k' := fun h => hp (hpk.trans h)
          rw [if_pos hpk, if_neg hkk, if_pos hpk]
        · simp only [if_neg hpk]

theorem dlookup_dictUpdate_of_notMem {α : Type} (d o : Dict α) (k : String)
    (h : k ∉ o.map Prod.fst) : dlookup (dictUpdate d o) k = dlookup d k := by
  induction o generalizing d with
  | nil => rfl
  | cons p rest ih =>
      show dlookup (dictUpdate (dictSet d p.1 p.2) rest) k = dlookup d k
      have h1 : k ≠ p.1 := by
        intro hk
        exact h (by simp [hk])
      have h2 : k ∉ rest.map Prod.fst := by
        intro hk
        exact h (by simp [hk])
      rw [ih _ h2, dlookup_dictSet, if_neg h1]

theorem dlookup_dictUpdate_of_mem {α : Type} (d o : Dict α) (k : String) (v : α)
    (hnd : (o.map Prod.fst).Nodup) (h : (k, v) ∈ o) :
    dlookup (dictUpdate d o) k = some v := by
  induction o generalizing d with
  | nil => cases h
  | cons p rest ih =>
      show dlookup (dictUpdate (dictSet d p.1 p.2) rest) k = some v
      have hnd' : p.1 ∉ rest.map Prod.fst ∧ (rest.map Prod.fst).Nodup := by
        rw [List.map_cons] at hnd
        exact List.nodup_cons.mp hnd
      rcases List.mem_cons.mp h with rfl | hmem
      · rw [dlookup_dictUpdate_of_notMem _ _ _ hnd'.1, dlookup_dictSet, if_pos rfl]
      · exact ih _ hnd'.2 hmem

/-- C10: neither `compute_insights` nor config resolution mutates its
inputs or the module-level defaults.  Mutation is rendered by explicit
state passing: the state-passing embeddings hand back the module state
and the rows list unchanged (the source only reads rows and updates
copies of the default dicts), and the merged dicts are the overlay of the
overrides on the defaults, leaving the defaults themselves intact. -/
theorem C10_no_mutation (config : Option Config) :
    (get_cols_and_thresholds_st config initModuleState).2 = initModuleState
    ∧ (get_cols_and_thresholds_st config initModuleState).1 = get_cols_and_thresholds config
    ∧ (∀ (rows : List Row) (cols : Dict String) (thr : Dict ℚ) (st : ModuleState),
        (compute_insights_st rows cols thr st).2 = (rows, st))
    ∧ (∀ (over : Dict String) (k : String), k ∉ over.map Prod.fst →
        dlookup (dictUpdate DEFAULT_COLS over) k = dlookup DEFAULT_COLS k)
    ∧ (∀ (over : Dict String) (k : String) (v : String), (over.map Prod.fst).Nodup →
        (k, v) ∈ over → dlookup (dictUpdate DEFAULT_COLS over) k = some v) := by
  refine ⟨?_, ?_, fun _ _ _ _ => rfl, fun o k h => dlookup_dictUpdate_of_notMem _ _ _ h,
    fun o k v hnd hm => dlookup_dictUpdate_of_mem _ _ _ _ hnd hm⟩
  · cases config <;> rfl
  · cases config <;> rfl

/-- A sample config override for the C10 witness. -/
def cfgSample : Config := ⟨some [("total_cost", "COST")], some [("top_n", 2)]⟩

/-- Witness for C10: a concrete override leaves the module state intact,
untouched defaults keep their value, and the overridden key maps to the
override. -/
theorem C10_witness :
    (get_cols_and_thresholds_st (some cfgSample) initModuleState).2 = initModuleState
    ∧ dlookup (dictUpdate DEFAULT_COLS [("total_cost", "COST")]) "vendor" =
        dlookup DEFAULT_COLS "vendor"
    ∧ dlookup (dictUpdate DEFAULT_COLS [("total_cost", "COST")]) "total_cost" = some "COST" :=
  have h := C10_no_mutation (some cfgSample)
  ⟨h.1, h.2.2.2.1 _ "vendor" (by decide), h.2.2.2.2 _ "total_cost" "COST" (by decide) (by decide)⟩

theorem vatFlagOfRow_isSome_iff (cols : Dict String) (thr : Dict ℚ) (llk : String) (r : Row) :
    (vatFlagOfRow cols thr llk r).isSome = true ↔
      (0 < to_number (rowGet r (dget cols "vat_pct"))
       ∧ qget thr "vat_expected_min" ≤
           to_number (rowGet r (dget cols "vat_pct")) *
             (to_number (rowGet r (dget cols "total_cost")) +
              to_number (rowGet r (dget cols "sela_fees")))
       ∧ (qget thr "vat_diff_abs_min" ≤
            |to_number (rowGet r (dget cols "vat_amount")) -
              to_number (rowGet r (dget cols "vat_pct")) *
                (to_number (rowGet r (dget cols "total_cost")) +
                 to_number (rowGet r (dget cols "sela_fees")))|
          ∨ qget thr "vat_diff_pct_min" ≤
            |safe_div
              (to_number (rowGet r (dget cols "vat_amount")) -
                to_number (rowGet r (dget cols "vat_pct")) *
                  (to_number (rowGet r (dget cols "total_cost")) +
                   to_number (rowGet r (dget cols "sela_fees"))))
              (to_number (rowGet r (dget cols "vat_pct")) *
                (to_number (rowGet r (dget cols "total_cost")) +
                 to_number (rowGet r (dget cols "sela_fees"))))|)) := by
  unfold vatFlagOfRow
  dsimp only
  split_ifs with h1 h2 h3
  · simp [not_lt.mpr h1]
  · simp [not_le.mpr h2]
  · constructor
    · intro _
      exact ⟨not_le.mp h1, not_lt.mp h2, h3⟩
    · intro _
      rfl
  · simp [h3, not_le.mp h1, not_lt.mp h2]

/-- C1: the VAT-basis flag list is empty when the VAT-percent column is
absent from every row; when it is present, a row produces a flag exactly
when its normalized percent is strictly positive, the expected VAT
`vat_pct * (total_cost_cell + sela_fees_cell)` reaches
`vat_expected_min`, and the absolute or relative deviation of the actual
VAT reaches its threshold; the reported list is the per-row flags sorted
descending by `|diff|` and truncated to 15 entries. -/
theorem C1_vat_basis_flags (rows : List Row) (cols : Dict String) (thr : Dict ℚ) (rep : Report)
    (hok : compute_insights rows cols thr = .ok rep) :
    (keyInDataset rows (dget cols "vat_pct") = false → rep.vat_basis_flags = [])
    ∧ rep.vat_basis_flags.length ≤ 15
    ∧ List.Pairwise (fun a b : VatFlag => |b.diff| ≤ |a.diff|) rep.vat_basis_flags
    ∧ (keyInDataset rows (dget cols "vat_pct") = true →
        rep.vat_basis_flags =
          (sortFlagsDesc (rows.filterMap
            (vatFlagOfRow cols thr (lineLabelKey rows cols)))).take 15
        ∧ ∀ r ∈ rows,
            ((vatFlagOfRow cols thr (lineLabelKey rows cols) r).isSome = true ↔
              (0 < to_number (rowGet r (dget cols "vat_pct"))
               ∧ qget thr "vat_expected_min" ≤
                   to_number (rowGet r (dget cols "vat_pct")) *
                     (to_number (rowGet r (dget cols "total_cost")) +
                      to_number (rowGet r (dget cols "sela_fees")))
               ∧ (qget thr "vat_diff_abs_min" ≤
                    |to_number (rowGet r (dget cols "vat_amount")) -
                      to_number (rowGet r (dget cols "vat_pct")) *
                        (to_number (rowGet r (dget cols "total_cost")) +
                         to_number (rowGet r (dget cols "sela_fees")))|
                  ∨ qget thr "vat_diff_pct_min" ≤
                    |safe_div
                      (to_number (rowGet r (dget cols "vat_amount")) -
                        to_number (rowGet r (dget cols "vat_pct")) *
                          (to_number (rowGet r (dget cols "total_cost")) +
                           to_number (rowGet r (dget cols "sela_fees"))))
                      (to_number (rowGet r (dget cols "vat_pct")) *
                        (to_number (rowGet r (dget cols "total_cost")) +
                         to_number (rowGet r (dget cols "sela_fees"))))|)))) := by
  obtain rfl := compute_insights_ok_eq hok
  haveI instTot : IsTotal VatFlag (fun a b => |b.diff| ≤ |a.diff|) :=
    ⟨fun a b => le_total _ _⟩
  haveI instTrans : IsTrans VatFlag (fun a b => |b.diff| ≤ |a.diff|) :=
    ⟨fun _ _ _ hab hbc => le_trans hbc hab⟩
  have hfield : (buildReport rows cols thr).vat_basis_flags = vatFlagsOf rows cols thr := rfl
  rw [hfield]
  by_cases hp : keyInDataset rows (dget cols "vat_pct") = true
  · have heq : vatFlagsOf rows cols thr =
        (sortFlagsDesc (rows.filterMap
          (vatFlagOfRow cols thr (lineLabelKey rows cols)))).take 15 := by
      rw [vatFlagsOf, if_pos hp]
    refine ⟨fun hfalse => absurd hp (by rw [hfalse]; exact Bool.false_ne_true), ?_, ?_, ?_⟩
    · rw [heq, List.length_take]
      exact min_le_left _ _
    · rw [heq]
      exact (List.sorted_insertionSort _ _).sublist (List.take_sublist _ _)
    · exact fun _ => ⟨heq, fun r _ => vatFlagOfRow_isSome_iff cols thr (lineLabelKey rows cols) r⟩
  · have heq : vatFlagsOf rows cols thr = [] := by
      rw [vatFlagsOf, if_neg hp]
    rw [heq]
    exact ⟨fun _ => rfl, by simp, List.Pairwise.nil, fun htrue => absurd htrue hp⟩

/-- A dataset with one row that must be VAT-flagged (expected VAT 15000,
actual 0). -/
def rowsVat : List Row :=
  [[("TOTAL COST", .num 100000), ("SELA FEES", .num 0), ("VAT AMOUNT", .num 0),
    ("TOTAL BUDGET", .num 0), ("ACTUAL PR", .num 0), ("ACTUAL PO", .num 0),
    ("VAT %", .str "15%"), ("BUDGET LINE ITEM DESCRIPTION", .str "Line A")]]

/-- Witness for C1 on a dataset that produces one flag. -/
theorem C1_witness :
    (buildReport rowsVat DEFAULT_COLS DEFAULT_THRESHOLDS).vat_basis_flags.length ≤ 15
    ∧ (buildReport rowsVat DEFAULT_COLS DEFAULT_THRESHOLDS).vat_basis_flags =
        (sortFlagsDesc (rowsVat.filterMap
          (vatFlagOfRow DEFAULT_COLS DEFAULT_THRESHOLDS
            (lineLabelKey rowsVat DEFAULT_COLS)))).take 15
    ∧ (buildReport rowsVat DEFAULT_COLS DEFAULT_THRESHOLDS).vat_basis_flags.length = 1 :=
  have h := C1_vat_basis_flags rowsVat DEFAULT_COLS DEFAULT_THRESHOLDS _ rfl
  ⟨h.2.1, (h.2.2.2 (by decide)).1, by decide⟩

theorem dlookup_upsertAdd (out : List (String × ℚ)) (k' : String) (v : ℚ) (k : String) :
    dlookup (upsertAdd out k' v) k =
      if k = k' then some ((dlookup out k).getD 0 + v) else dlookup out k := by
  induction out with
  | nil =>
      by_cases h : k = k'
      · subst h
        simp [upsertAdd, dlookup_cons, dlookup]
      · have h2 : ¬ k' = k := fun hh => h hh.symm
        simp [upsertAdd, dlookup_cons, dlookup, h, h2]
  | cons p rest ih =>
      rw [upsertAdd]
      by_cases hp : p.1 = k'
      · rw [if_pos hp, dlookup_cons, dlookup_cons]
        by_cases hk : p.1 = k
        · have hk' : k = k' := hk.symm.trans hp
          rw [if_pos hk, if_pos hk', if_pos hk]
          simp
        · have hk' : ¬ k = k' := fun hh => hk (hp.trans hh.symm)
          rw [if_neg hk, if_neg hk', if_neg hk]
      · rw [if_neg hp, dlookup_cons, ih, dlookup_cons]
        by_cases hpk : p.1 = k
        · have hkk' : ¬ k = k' := fun hh => hp (hpk.trans hh)
          rw [if_pos hpk, if_neg hkk', if_pos hpk]
        · simp only [if_neg hpk]

/-- The exact total contributed to group `k` by `rows`: the sum of the
normalized values of the rows whose label is `k`. -/
def groupContrib (gk vk k : String) (rows : List Row) : ℚ :=
  ((rows.filter (fun r => rowLabel gk r = k)).map (fun r => to_number (rowGet r vk))).sum

theorem dlookup_group_sum_foldl (gk vk k : String) :
    ∀ (rows : List Row) (acc : List (String × ℚ)),
      dlookup (rows.foldl (fun out r =>
          upsertAdd out (rowLabel gk r) (to_number (rowGet r vk))) acc) k =
        match dlookup acc k with
        | some a => some (a + groupContrib gk vk k rows)
        | none =>
            if rows.any (fun r => rowLabel gk r = k) then some (groupContrib gk vk k rows)
            else none := by
  intro rows
  induction rows with
  | nil =>
      intro acc
      cases h : dlookup acc k <;> simp [groupContrib, h]
  | cons r rest ih =>
      intro acc
      rw [List.foldl_cons, ih, dlookup_upsertAdd]
      by_cases hr : rowLabel gk r = k
      · rw [if_pos hr.symm]
        cases h : dlookup acc k with
        | some a => simp [h, groupContrib, List.filter_cons, hr, add_assoc]
        | none => simp [h, groupContrib, List.filter_cons, hr, List.any_cons]
      · rw [if_neg (fun hh => hr hh.symm)]
        cases h : dlookup acc k with
        | some a => simp [h, groupContrib, List.filter_cons, hr]
        | none => simp [h, groupContrib, List.filter_cons, hr, List.any_cons]

theorem dlookup_group_sum (rows : List Row) (gk vk k : String) :
    dlookup (group_sum rows gk vk) k =
      if rows.any (fun r => rowLabel gk r = k) then some (groupContrib gk vk k rows)
      else none := by
  have h := dlookup_group_sum_foldl gk vk k rows []
  simpa [group_sum, dlookup] using h

/-- C8: `group_sum` is permutation-invariant: permuting the rows leaves
the label-to-sum mapping unchanged (exact rational arithmetic in place of
floating point; the empty label participates like any other). -/
theorem C8_group_sum_permutation (rows rows' : List Row) (gk vk : String)
    (h : rows.Perm rows') (k : String) :
    dlookup (group_sum rows gk vk) k = dlookup (group_sum rows' gk vk) k := by
  rw [dlookup_group_sum, dlookup_group_sum]
  have hany : rows.any (fun r => rowLabel gk r = k) =
      rows'.any (fun r => rowLabel gk r = k) := by
    rw [Bool.eq_iff_iff, List.any_eq_true, List.any_eq_true]
    constructor
    · rintro ⟨x, hx, hfx⟩
      exact ⟨x, h.mem_iff.mp hx, hfx⟩
    · rintro ⟨x, hx, hfx⟩
      exact ⟨x, h.mem_iff.mpr hx, hfx⟩
  have hsum : groupContrib gk vk k rows = groupContrib gk vk k rows' :=
    ((h.filter _).map _).sum_eq
  rw [hany, hsum]

/-- A two-row dataset and its swap, for the C8 witness. -/
def rowSwapA : Row := [("G", .str "x"), ("V", .num 1)]

/-- Second row of the C8 witness dataset. -/
def rowSwapB : Row := [("G", .str "y"), ("V", .num 2)]

/-- Witness for C8: swapping two rows leaves the group lookup unchanged. -/
theorem C8_witness :
    dlookup (group_sum [rowSwapA, rowSwapB] "G" "V") "x" =
      dlookup (group_sum [rowSwapB, rowSwapA] "G" "V") "x" :=
  C8_group_sum_permutation [rowSwapA, rowSwapB] [rowSwapB, rowSwapA] "G" "V"
    (List.Perm.swap rowSwapB rowSwapA []) "x"

theorem dlookup_isSome_iff_mem_keys {α : Type} (d : Dict α) (k : String) :
    (dlookup d k).isSome = true ↔ k ∈ d.map Prod.fst := by
  induction d with
  | nil => simp [dlookup]
  | cons p rest ih =>
      rw [dlookup_cons]
      by_cases hp : p.1 = k
      · simp [hp]
      · have hk : ¬ k = p.1 := fun h => hp h.symm
        simp [hp, hk, ih]

theorem mem_keys_upsertAdd (out : List (String × ℚ)) (k' : String) (v : ℚ) (k : String) :
    k ∈ (upsertAdd out k' v).map Prod.fst ↔ k ∈ out.map Prod.fst ∨ k = k' := by
  rw [← dlookup_isSome_iff_mem_keys, ← dlookup_isSome_iff_mem_keys, dlookup_upsertAdd]
  by_cases h : k = k' <;> simp [h]

theorem keys_nodup_upsertAdd (out : List (String × ℚ)) (k : String) (v : ℚ)
    (h : (out.map Prod.fst).Nodup) : ((upsertAdd out k v).map Prod.fst).Nodup := by
  induction out with
  | nil => simp [upsertAdd]
  | cons p rest ih =>
      rw [upsertAdd]
      by_cases hp : p.1 = k
      · rw [if_pos hp]
        simpa using h
      · rw [if_neg hp]
        rw [List.map_cons] at h ⊢
        rcases List.nodup_cons.mp h with ⟨hmem, hnd⟩
        refine List.nodup_cons.mpr ⟨?_, ih hnd⟩
        intro hin
        rcases (mem_keys_upsertAdd rest k v p.1).mp hin with hin2 | heq
        · exact hmem hin2
        · exact hp heq

theorem group_sum_keys_nodup (rows : List Row) (gk vk : String) :
    ((group_sum rows gk vk).map Prod.fst).Nodup := by
  suffices h : ∀ (rows : List Row) (acc : List (String × ℚ)), (acc.map Prod.fst).Nodup →
      ((rows.foldl (fun out r =>
        upsertAdd out (rowLabel gk r) (to_number (rowGet r vk))) acc).map Prod.fst).Nodup by
    exact h rows [] (by simp)
  intro rows
  induction rows with
  | nil => exact fun acc h => h
  | cons r rest ih => exact fun acc h => ih _ (keys_nodup_upsertAdd _ _ _ h)

theorem mem_keys_group_sum (rows : List Row) (gk vk k : String) :
    k ∈ (group_sum rows gk vk).map Prod.fst ↔ k ∈ rows.map (rowLabel gk) := by
  rw [← dlookup_isSome_iff_mem_keys, dlookup_group_sum]
  by_cases hc : rows.any (fun r => rowLabel gk r = k) = true
  · rw [if_pos hc]
    simp only [Option.isSome_some, true_iff]
    obtain ⟨r, hr, hl⟩ := List.any_eq_true.mp hc
    exact List.mem_map.mpr ⟨r, hr, of_decide_eq_true hl⟩
  · rw [if_neg hc]
    simp only [Option.isSome_none, Bool.false_eq_true, false_iff]
    intro hmem
    obtain ⟨r, hr, hl⟩ := List.mem_map.mp hmem
    exact hc (List.any_eq_true.mpr ⟨r, hr, decide_eq_true hl⟩)

theorem group_sum_length_distinct (rows : List Row) (gk vk : String) :
    (group_sum rows gk vk).length = ((rows.map (rowLabel gk)).dedup).length := by
  have hperm : ((group_sum rows gk vk).map Prod.fst).Perm ((rows.map (rowLabel gk)).dedup) :=
    (List.perm_ext_iff_of_nodup (group_sum_keys_nodup rows gk vk)
      (List.nodup_dedup _)).mpr
      (fun a => by rw [mem_keys_group_sum, List.mem_dedup])
  calc (group_sum rows gk vk).length
      = ((group_sum rows gk vk).map Prod.fst).length := (List.length_map _ _).symm
    _ = ((rows.map (rowLabel gk)).dedup).length := hperm.length_eq

/-- C6: `top_drivers_total_budget` has exactly
`min(top_n, number of distinct trimmed line-item labels)` entries, listed
in descending order of group-summed total budget, and they dominate the
remaining groups (every omitted group's sum is at most every listed
one's). -/
theorem C6_top_drivers (rows : List Row) (cols : Dict String) (thr : Dict ℚ) (rep : Report)
    (hok : compute_insights rows cols thr = .ok rep)
    (hn : 0 ≤ pyInt (qget thr "top_n")) :
    rep.top_drivers_total_budget.length =
      min (pyInt (qget thr "top_n")).toNat
        (group_sum rows (lineLabelKey rows cols) (dget cols "total_budget")).length
    ∧ (group_sum rows (lineLabelKey rows cols) (dget cols "total_budget")).length =
        ((rows.map (rowLabel (lineLabelKey rows cols))).dedup).length
    ∧ List.Pairwise (fun a b : String × ℚ => b.2 ≤ a.2) rep.top_drivers_total_budget
    ∧ ∃ rest, (rep.top_drivers_total_budget ++ rest).Perm
          (group_sum rows (lineLabelKey rows cols) (dget cols "total_budget"))
        ∧ ∀ a ∈ rep.top_drivers_total_budget, ∀ b ∈ rest, b.2 ≤ a.2 := by
  obtain rfl := compute_insights_ok_eq hok
  haveI : IsTotal (String × ℚ) (fun a b => b.2 ≤ a.2) := ⟨fun a b => le_total _ _⟩
  haveI : IsTrans (String × ℚ) (fun a b => b.2 ≤ a.2) := ⟨fun _ _ _ hab hbc => le_trans hbc hab⟩
  have hfield : (buildReport rows cols thr).top_drivers_total_budget =
      topDriversOf rows cols thr := rfl
  have htop : topDriversOf rows cols thr =
      (sortDescSnd (group_sum rows (lineLabelKey rows cols) (dget cols "total_budget"))).take
        (pyInt (qget thr "top_n")).toNat := by
    rw [topDriversOf, pySliceTo, if_pos hn]
  have hsort : List.Pairwise (fun a b : String × ℚ => b.2 ≤ a.2)
      (sortDescSnd (group_sum rows (lineLabelKey rows cols) (dget cols "total_budget"))) :=
    List.sorted_insertionSort _ _
  have hperm : (sortDescSnd (group_sum rows (lineLabelKey rows cols)
      (dget cols "total_budget"))).Perm
      (group_sum rows (lineLabelKey rows cols) (dget cols "total_budget")) :=
    List.perm_insertionSort _ _
  refine ⟨?_, group_sum_length_distinct rows (lineLabelKey rows cols) (dget cols "total_budget"),
    ?_, ?_⟩
  · rw [hfield, htop, List.length_take, hperm.length_eq]
  · rw [hfield, htop]
    exact hsort.sublist (List.take_sublist _ _)
  · refine ⟨(sortDescSnd (group_sum rows (lineLabelKey rows cols)
      (dget cols "total_budget"))).drop (pyInt (qget thr "top_n")).toNat, ?_, ?_⟩
    · rw [hfield, htop, List.take_append_drop]
      exact hperm
    · rw [hfield, htop]
      have hsplit := List.pairwise_append.mp
        (by rw [List.take_append_drop]; exact hsort :
          List.Pairwise (fun a b : String × ℚ => b.2 ≤ a.2)
            ((sortDescSnd (group_sum rows (lineLabelKey rows cols)
              (dget cols "total_budget"))).take (pyInt (qget thr "top_n")).toNat ++
             (sortDescSnd (group_sum rows (lineLabelKey rows cols)
              (dget cols "total_budget"))).drop (pyInt (qget thr "top_n")).toNat))
      exact fun a ha b hb => hsplit.2.2 a ha b hb

/-- One row of the C6 witness dataset. -/
def mkTopRow (label : String) (tb : ℚ) : Row :=
  [("TOTAL COST", .num 0), ("SELA FEES", .num 0), ("VAT AMOUNT", .num 0),
   ("TOTAL BUDGET", .num tb), ("ACTUAL PR", .num 0), ("ACTUAL PO", .num 0),
   ("BUDGET LINE ITEM DESCRIPTION", .str label)]

/-- Five rows with distinct labels for the C6 witness. -/
def rowsTop : List Row :=
  [mkTopRow "A" 10, mkTopRow "B" 50, mkTopRow "C" 30, mkTopRow "D" 20, mkTopRow "E" 40]

/-- Thresholds with `top_n` overridden to 2. -/
def thrTop : Dict ℚ := dictUpdate DEFAULT_THRESHOLDS [("top_n", 2)]

/-- Witness for C6: `top_n = 2` over 5 distinct groups returns exactly
the two largest, in order. -/
theorem C6_witness :
    (buildReport rowsTop DEFAULT_COLS thrTop).top_drivers_total_budget.length =
      min (pyInt (qget thrTop "top_n")).toNat
        (group_sum rowsTop (lineLabelKey rowsTop DEFAULT_COLS)
          (dget DEFAULT_COLS "total_budget")).length
    ∧ (buildReport rowsTop DEFAULT_COLS thrTop).top_drivers_total_budget =
        [("B", 50), ("E", 40)] :=
  have h := C6_top_drivers rowsTop DEFAULT_COLS thrTop _ rfl (by decide)
  ⟨h.1, by decide⟩

theorem dropWhile_append_of_all {α : Type} {p : α → Bool} (l1 l2 : List α)
    (h : ∀ c ∈ l1, p c = true) : (l1 ++ l2).dropWhile p = l2.dropWhile p := by
  induction l1 with
  | nil => rfl
  | cons c cs ih =>
      rw [List.cons_append, List.dropWhile_cons, if_pos (h c (List.mem_cons_self c cs))]
      exact ih fun x hx => h x (List.mem_cons_of_mem c hx)

theorem dropWhile_cons_of_neg {α : Type} {p : α → Bool} {c : α} (l : List α)
    (h : p c = false) : (c :: l).dropWhile p = c :: l := by
  rw [List.dropWhile_cons, if_neg (by simp [h])]

theorem takeWhile_append_of_all {α : Type} {p : α → Bool} (l1 : List α) {c : α} (l2 : List α)
    (hall : ∀ x ∈ l1, p x = true) (hc : p c = false) :
    (l1 ++ c :: l2).takeWhile p = l1 := by
  induction l1 with
  | nil => rw [List.nil_append, List.takeWhile_cons, if_neg (by simp [hc])]
  | cons a as ih =>
      rw [List.cons_append, List.takeWhile_cons, if_pos (hall a (List.mem_cons_self a as)),
        ih fun x hx => hall x (List.mem_cons_of_mem a hx)]

theorem dropWhile_append_stop {α : Type} {p : α → Bool} (l1 : List α) {c : α} (l2 : List α)
    (hall : ∀ x ∈ l1, p x = true) (hc : p c = false) :
    (l1 ++ c :: l2).dropWhile p = c :: l2 := by
  rw [dropWhile_append_of_all l1 (c :: l2) hall, dropWhile_cons_of_neg l2 hc]

theorem not_space_of_digit {c : Char} (h : c.isDigit = true) : isPySpace c = false := by
  by_contra hs
  rw [Bool.not_eq_false] at hs
  simp only [isPySpace, Bool.or_eq_true, decide_eq_true_eq] at hs
  rcases hs with ((((rfl | rfl) | rfl) | rfl) | rfl) | rfl <;> exact absurd h (by decide)

theorem ne_of_digit {c d : Char} (h : c.isDigit = true) (hd : d.isDigit = false) : ¬ c = d := by
  intro hh
  subst hh
  rw [h] at hd
  exact Bool.noConfusion hd

theorem pyStrip_sandwich (ws1 ws2 core : List Char)
    (h1 : ∀ c ∈ ws1, isPySpace c = true) (h2 : ∀ c ∈ ws2, isPySpace c = true)
    (hhead : ∃ c rest, core = c :: rest ∧ isPySpace c = false)
    (hlast : ∃ init c, core = init ++ [c] ∧ isPySpace c = false) :
    pyStrip (ws1 ++ core ++ ws2) = core := by
  obtain ⟨c0, rest0, hc0, hc0s⟩ := hhead
  obtain ⟨init, cl, hcl, hcls⟩ := hlast
  unfold pyStrip
  rw [List.append_assoc, dropWhile_append_of_all ws1 (core ++ ws2) h1, hc0, List.cons_append,
    dropWhile_cons_of_neg _ hc0s, ← List.cons_append, ← hc0, List.reverse_append,
    dropWhile_append_of_all _ _ (fun c hc => h2 c (List.mem_reverse.mp hc)), hcl,
    List.reverse_append, List.reverse_singleton, List.singleton_append,
    dropWhile_cons_of_neg _ hcls, List.reverse_cons, List.reverse_reverse, ← hcl]

theorem percentTail_single (v : ℚ) : percentTail v ['%'] = some v := rfl

theorem parsePercentDigits_core (neg : Bool) (ds fs : List Char) (useFrac : Bool)
    (hds : ds ≠ []) (hdsall : ∀ c ∈ ds, c.isDigit = true)
    (hfsne : useFrac = true → fs ≠ []) (hfsall : ∀ c ∈ fs, c.isDigit = true) :
    parsePercentDigits neg (ds ++ (if useFrac then '.' :: fs else []) ++ ['%']) =
      some (if neg then -(decVal ds (if useFrac then fs else []))
            else decVal ds (if useFrac then fs else [])) := by
  cases useFrac with
  | false =>
      have ht : (ds ++ '%' :: []).takeWhile Char.isDigit = ds :=
        takeWhile_append_of_all ds [] hdsall (by decide)
      have hd : (ds ++ '%' :: []).dropWhile Char.isDigit = '%' :: [] :=
        dropWhile_append_stop ds [] hdsall (by decide)
      simp only [if_neg Bool.false_ne_true, List.append_nil]
      rw [parsePercentDigits]
      simp only [ht, hd]
      rw [if_neg fun hh => hds (List.isEmpty_iff.mp hh)]
      rw [parseFracPart]
      rw [if_neg (show ¬ '%' = '.' by decide)]
      exact percentTail_single _
  | true =>
      have hfs : fs ≠ [] := hfsne rfl
      have hassoc : (ds ++ ('.' :: fs)) ++ ['%'] = ds ++ '.' :: (fs ++ '%' :: []) := by
        rw [List.append_assoc, List.cons_append]
      have ht : (ds ++ '.' :: (fs ++ '%' :: [])).takeWhile Char.isDigit = ds :=
        takeWhile_append_of_all ds (fs ++ '%' :: []) hdsall (by decide)
      have hd : (ds ++ '.' :: (fs ++ '%' :: [])).dropWhile Char.isDigit =
          '.' :: (fs ++ '%' :: []) :=
        dropWhile_append_stop ds (fs ++ '%' :: []) hdsall (by decide)
      have ht2 : (fs ++ '%' :: []).takeWhile Char.isDigit = fs :=
        takeWhile_append_of_all fs [] hfsall (by decide)
      have hd2 : (fs ++ '%' :: []).dropWhile Char.isDigit = '%' :: [] :=
        dropWhile_append_stop fs [] hfsall (by decide)
      simp only [eq_self_iff_true, if_true]
      rw [hassoc, parsePercentDigits]
      simp only [ht, hd]
      rw [if_neg fun hh => hds (List.isEmpty_iff.mp hh)]
      rw [parseFracPart]
      rw [if_pos rfl]
      simp only [ht2, hd2]
      rw [if_neg fun hh => hfs (List.isEmpty_iff.mp hh)]
      exact percentTail_single _

theorem matchPercent_core (neg : Bool) (ds fs : List Char) (useFrac : Bool)
    (hds : ds ≠ []) (hdsall : ∀ c ∈ ds, c.isDigit = true)
    (hfsne : useFrac = true → fs ≠ []) (hfsall : ∀ c ∈ fs, c.isDigit = true) :
    matchPercent ((if neg then ['-'] else []) ++ ds ++
        (if useFrac then '.' :: fs else []) ++ ['%']) =
      some (if neg then -(decVal ds (if useFrac then fs else []))
            else decVal ds (if useFrac then fs else [])) := by
  obtain ⟨d0, ds0, rfl⟩ := List.exists_cons_of_ne_nil hds
  have hd0 : d0.isDigit = true := hdsall d0 (List.mem_cons_self d0 ds0)
  cases neg with
  | false =>
      have hcore : (if false = true then ['-'] else []) ++ (d0 :: ds0) ++
          (if useFrac then '.' :: fs else []) ++ ['%'] =
          d0 :: (ds0 ++ (if useFrac then '.' :: fs else []) ++ ['%']) := by
        simp [List.cons_append, List.append_assoc]
      rw [hcore, matchPercent]
      rw [dropWhile_cons_of_neg _ (not_space_of_digit hd0)]
      rw [stripNeg]
      rw [if_neg (ne_of_digit hd0 (by decide))]
      have := parsePercentDigits_core false (d0 :: ds0) fs useFrac hds hdsall hfsne hfsall
      rw [show d0 :: (ds0 ++ (if useFrac then '.' :: fs else []) ++ ['%']) =
          (d0 :: ds0) ++ (if useFrac then '.' :: fs else []) ++ ['%'] by
        simp [List.cons_append, List.append_assoc]]
      exact this
  | true =>
      have hcore : (if true = true then ['-'] else []) ++ (d0 :: ds0) ++
          (if useFrac then '.' :: fs else []) ++ ['%'] =
          '-' :: ((d0 :: ds0) ++ (if useFrac then '.' :: fs else []) ++ ['%']) := by
        simp [List.cons_append, List.append_assoc]
      rw [hcore, matchPercent]
      rw [dropWhile_cons_of_neg _ (by decide : isPySpace '-' = false)]
      rw [stripNeg]
      rw [if_pos rfl]
      exact parsePercentDigits_core true (d0 :: ds0) fs useFrac hds hdsall hfsne hfsall

/-- C4 counterexample: `"+12%"` matches the claim's pattern (optional
sign, digits, trailing percent), but the regex group is `-?`, so a plus
sign falls through to the float parse, which fails on the trailing `%`
and yields `0`, not `0.12`. -/
theorem C4_counterexample :
    to_number (.str "+12%") = 0 ∧ to_number (.str "+12%") ≠ 12 / 100 := by
  decide

/-- C4 amended: for every string of an optional MINUS sign, one or more
digits, an optional decimal part, and a trailing `'%'`, with surrounding
whitespace tolerated, `to_number` returns the numeric part's exact
decimal value divided by 100. -/
theorem C4_amended_percent_strings (ws1 ws2 ds fs : List Char) (neg useFrac : Bool)
    (hws1 : ∀ c ∈ ws1, isPySpace c = true) (hws2 : ∀ c ∈ ws2, isPySpace c = true)
    (hds : ds ≠ []) (hdsall : ∀ c ∈ ds, c.isDigit = true)
    (hfsne : useFrac = true → fs ≠ []) (hfsall : ∀ c ∈ fs, c.isDigit = true) :
    to_number (.str (String.mk (ws1 ++ ((if neg then ['-'] else []) ++ ds ++
        (if useFrac then '.' :: fs else []) ++ ['%']) ++ ws2))) =
      (if neg then -(decVal ds (if useFrac then fs else []))
       else decVal ds (if useFrac then fs else [])) / 100 := by
  have hhead : ∃ c rest, (if neg then ['-'] else []) ++ ds ++
      (if useFrac then '.' :: fs else []) ++ ['%'] = c :: rest ∧ isPySpace c = false := by
    obtain ⟨d0, ds0, rfl⟩ := List.exists_cons_of_ne_nil hds
    cases neg with
    | false =>
        refine ⟨d0, ds0 ++ (if useFrac then '.' :: fs else []) ++ ['%'], ?_,
          not_space_of_digit (hdsall d0 (List.mem_cons_self d0 ds0))⟩
        simp [List.cons_append, List.append_assoc]
    | true =>
        refine ⟨'-', (d0 :: ds0) ++ (if useFrac then '.' :: fs else []) ++ ['%'], ?_, by decide⟩
        simp [List.cons_append, List.append_assoc]
  have hlast : ∃ init c, (if neg then ['-'] else []) ++ ds ++
      (if useFrac then '.' :: fs else []) ++ ['%'] = init ++ [c] ∧ isPySpace c = false :=
    ⟨(if neg then ['-'] else []) ++ ds ++ (if useFrac then '.' :: fs else []), '%', rfl,
      by decide⟩
  have hstrip := pyStrip_sandwich ws1 ws2 _ hws1 hws2 hhead hlast
  have hmatch := matchPercent_core neg ds fs useFrac hds hdsall hfsne hfsall
  have hpc : '%' ∈ (if neg then ['-'] else []) ++ ds ++
      (if useFrac then '.' :: fs else []) ++ ['%'] := by
    simp
  have hnp : ((if neg then ['-'] else []) ++ ds ++ (if useFrac then '.' :: fs else []) ++ ['%'])
      ∉ placeholders := by
    intro hmem
    have hpl : placeholders =
        [[], ['-'], ['—'], ['–'], ['N', '/', 'A'], ['N', 'A'], ['n', 'a', 'n'],
         ['N', 'o', 'n', 'e']] := rfl
    rw [hpl] at hmem
    simp only [List.mem_cons, List.not_mem_nil, or_false] at hmem
    rcases hmem with h | h | h | h | h | h | h | h <;>
      (rw [h] at hpc; exact absurd hpc (by decide))
  show strToNumber (String.mk (ws1 ++ ((if neg then ['-'] else []) ++ ds ++
      (if useFrac then '.' :: fs else []) ++ ['%']) ++ ws2)) = _
  have hTL : (String.mk (ws1 ++ ((if neg then ['-'] else []) ++ ds ++
      (if useFrac then '.' :: fs else []) ++ ['%']) ++ ws2)).toList =
      ws1 ++ ((if neg then ['-'] else []) ++ ds ++
        (if useFrac then '.' :: fs else []) ++ ['%']) ++ ws2 := rfl
  simp only [strToNumber]
  rw [hTL, hstrip, if_neg hnp, hmatch]

/-- Witness for C4's amended theorem: `to_number "12%" = 0.12`. -/
theorem C4_witness : to_number (.str "12%") = 12 / 100 := by
  have h := C4_amended_percent_strings [] [] ['1', '2'] [] false false
    (by decide) (by decide) (by decide) (by decide) (by decide) (by decide)
  have heq : Value.str (String.mk (([] : List Char) ++ ((if false then ['-'] else []) ++
      ['1', '2'] ++ (if false then '.' :: ([] : List Char) else []) ++ ['%']) ++ [])) =
      Value.str "12%" := by decide
  rw [heq] at h
  rw [h]
  decide

end Insights
